import Mathlib

/-!
Verification development for the pandora appearance/state core.

The definitions below are shallow embeddings of the TypeScript sources:
  - src/pandora-common/src/assets/properties.ts (TreeLimit, TreeNode,
    AppearanceLimitTree of appearanceLimit.ts, concatenated into that file),
  - src/unnamed/part_006 (action schema and DoAppearanceAction),
  - src/unnamed/part_009 (ValidateStorage, ItemModuleStorage,
    AssetFrameworkRoomState).

JavaScript Map objects are embedded as insertion-ordered association lists;
machine numbers that hold pose values are embedded as Int, accumulated
distances as Nat, and the JavaScript Infinity sentinel used by the force
loops as the none case of Option Nat.
-/

/-! ## Association-list embedding of the JavaScript Map -/

/-- Lookup of a key (Map.get): first entry with the key, none otherwise. -/
def alGet {α : Type} (m : List (String × α)) (k : String) : Option α :=
  match m with
  | [] => none
  | (k2, v) :: rest => if k2 = k then some v else alGet rest k

/-- Map.set semantics: replace the value in place when the key is present
(keeping its position), otherwise append the new entry at the end. -/
def alSet {α : Type} (m : List (String × α)) (k : String) (v : α) : List (String × α) :=
  match m with
  | [] => [(k, v)]
  | (k2, v2) :: rest => if k2 = k then (k2, v) :: rest else (k2, v2) :: alSet rest k v

/-- Map.delete semantics: remove the entry with the key, keeping order. -/
def alDelete {α : Type} (m : List (String × α)) (k : String) : List (String × α) :=
  match m with
  | [] => []
  | (k2, v2) :: rest => if k2 = k then rest else (k2, v2) :: alDelete rest k

/-! ## Intervals and pose data -/

/-- An interval list, the value type of a TreeLimit entry ([number, number][]). -/
abbrev Intervals := List (Int × Int)

/-- The flattened pose map handed to the constraint tree
(Map of string key to number, produced by FromPose). -/
abbrev PoseData := List (String × Int)

/-- Modelled from the spec: IntervalSetIntersection (utility.ts, which is not
among the sources) computes the interval-set intersection as the union of
pairwise overlaps of the two interval lists. -/
def IntervalSetIntersection (a b : Intervals) : Intervals :=
  a.flatMap (fun p =>
    b.filterMap (fun q =>
      if max p.1 q.1 ≤ min p.2 q.2 then some (max p.1 q.1, min p.2 q.2) else none))

/-! ## TreeLimit (properties.ts) -/

/-- A TreeLimit: a read-only Map from pose key to an interval list. -/
structure TreeLimit where
  limit : List (String × Intervals)
deriving DecidableEq

/-- TreeLimit.validate: every entry of the data map whose key the limit
constrains must lie in one of the intervals for that key. -/
def TreeLimit.validate (l : TreeLimit) (data : PoseData) : Bool :=
  data.all (fun kv =>
    match alGet l.limit kv.1 with
    | none => true
    | some ivs => ivs.any (fun mm => mm.1 ≤ kv.2 && kv.2 ≤ mm.2))

/-- Comparison against the minDiff accumulator of the force loops, where
none plays the role of the JavaScript Infinity sentinel. -/
def optLt (a b : Option Nat) : Bool :=
  match a, b with
  | some x, some y => x < y
  | some _, none => true
  | none, _ => false

/-- Addition of accumulated distances; none (Infinity) is absorbing. -/
def addOpt (a b : Option Nat) : Option Nat :=
  match a, b with
  | some x, some y => some (x + y)
  | _, _ => none

/-- Inner loop of TreeLimit.force for a single value: walk the interval list,
returning immediately when the value is inside an interval, otherwise keeping
the endpoint with the smallest distance seen so far (both endpoints checked in
order inside each iteration). -/
def forceValueLoop (v : Int) : Intervals → Option Nat → Int → Option Nat × Int
  | [], best, bv => (best, bv)
  | (mn, mx) :: rest, best, bv =>
    if mn ≤ v && v ≤ mx then (some 0, v)
    else
      let dMin := (v - mn).natAbs
      let s1 : Option Nat × Int := if optLt (some dMin) best then (some dMin, mn) else (best, bv)
      let dMax := (v - mx).natAbs
      let s2 : Option Nat × Int := if optLt (some dMax) s1.1 then (some dMax, mx) else s1
      forceValueLoop v rest s2.1 s2.2

/-- One entry of TreeLimit.force: unconstrained keys keep their value and add
no distance; constrained keys run the interval loop (an empty interval list
leaves the Infinity sentinel, as in the source). -/
def TreeLimit.forceEntry (l : TreeLimit) (kv : String × Int) : Option Nat × Int :=
  match alGet l.limit kv.1 with
  | none => (some 0, kv.2)
  | some ivs => forceValueLoop kv.2 ivs none kv.2

/-- TreeLimit.force: clamp every entry of the data map and accumulate the
total distance moved. -/
def TreeLimit.force (l : TreeLimit) (data : PoseData) : Option Nat × PoseData :=
  data.foldr
    (fun kv acc =>
      let r := l.forceEntry kv
      (addOpt r.1 acc.1, (kv.1, r.2) :: acc.2))
    (some 0, [])

/-- TreeLimit.hasNoLimits: the limit map is empty. -/
def TreeLimit.hasNoLimits (l : TreeLimit) : Bool :=
  l.limit.isEmpty

/-- Helper for TreeLimit.intersection: walk the entries of the left limit,
intersecting values for keys present in both, failing (none) as soon as an
intersection comes out empty. -/
def TreeLimit.intersectionAux : List (String × Intervals) → TreeLimit → Option (List (String × Intervals))
  | [], _ => some []
  | (k, v) :: rest, other =>
    match alGet other.limit k with
    | none => TreeLimit.intersectionAux rest other
    | some w =>
      let nv := IntervalSetIntersection v w
      if nv.isEmpty then none
      else
        match TreeLimit.intersectionAux rest other with
        | none => none
        | some tail => some ((k, nv) :: tail)

/-- TreeLimit.intersection: keys present in both limits get the intersection
of their interval sets; an empty intersection fails the whole operation. -/
def TreeLimit.intersection (l other : TreeLimit) : Option TreeLimit :=
  (TreeLimit.intersectionAux l.limit other).map TreeLimit.mk

/-- TreeLimit.extend: add every key of other that the current limit lacks. -/
def TreeLimit.extend (l other : TreeLimit) : TreeLimit :=
  ⟨other.limit.foldl
    (fun acc kv => if (alGet acc kv.1).isSome then acc else acc ++ [kv])
    l.limit⟩

/-- TreeLimit.prune: remove every key that stores the same interval list as
in other (the lodash isEqual structural comparison becomes list equality). -/
def TreeLimit.prune (l other : TreeLimit) : TreeLimit :=
  ⟨other.limit.foldl
    (fun acc kv =>
      match alGet acc kv.1 with
      | none => acc
      | some v => if v = kv.2 then alDelete acc kv.1 else acc)
    l.limit⟩

/-! ## TreeNode (properties.ts)

The TypeScript field children has type TreeNode[] | null. To keep every
operation a structural recursion that the kernel can evaluate, the node, the
nullable children field and the children array are embedded as three mutually
inductive types (TreeChildren.null for null, TreeNodeList for the array). -/

mutual
inductive TreeNode where
  | mk (limit : TreeLimit) (children : TreeChildren)
deriving DecidableEq
inductive TreeChildren where
  | null
  | list (cs : TreeNodeList)
deriving DecidableEq
inductive TreeNodeList where
  | nil
  | cons (hd : TreeNode) (tl : TreeNodeList)
deriving DecidableEq
end

/-- The limit field of a node. -/
def TreeNode.limit : TreeNode → TreeLimit
  | ⟨l, _⟩ => l

/-- The children field of a node. -/
def TreeNode.children : TreeNode → TreeChildren
  | ⟨_, cs⟩ => cs

/-- Append on the embedded children arrays. -/
def TreeNodeList.append : TreeNodeList → TreeNodeList → TreeNodeList
  | .nil, ys => ys
  | .cons x xs, ys => .cons x (TreeNodeList.append xs ys)

/-- Length of an embedded children array. -/
def TreeNodeList.length : TreeNodeList → Nat
  | .nil => 0
  | .cons _ tl => 1 + TreeNodeList.length tl

mutual
/-- TreeNode.validate: the own limit must validate the data and, when a
children array is present, some child must validate it as well. -/
def TreeNode.validate : TreeNode → PoseData → Bool
  | ⟨l, .null⟩, d => l.validate d
  | ⟨l, .list cs⟩, d => l.validate d && TreeNodeList.validateAny cs d
/-- children.some((child) => child.validate(data)) of TreeNode.validate. -/
def TreeNodeList.validateAny : TreeNodeList → PoseData → Bool
  | .nil, _ => false
  | .cons c cs, d => TreeNode.validate c d || TreeNodeList.validateAny cs d
end

/-- Is the accumulated best diff of the child-selection loop exactly zero? -/
def bestIsZero (best : Option (Option Nat × PoseData)) : Bool :=
  match best with
  | some (some 0, _) => true
  | _ => false

/-- Does a child diff beat the best so far (minDiff starts at Infinity)? -/
def beatsBest (cd : Option Nat) (best : Option (Option Nat × PoseData)) : Bool :=
  match best with
  | none => optLt cd none
  | some b => optLt cd b.1

mutual
/-- TreeNode.force: clamp the data through the own limit, then run the
child-selection loop and keep the child result of minimal distance; when no
child result was selected, the own clamped data is returned. -/
def TreeNode.force : TreeNode → PoseData → Option Nat × PoseData
  | ⟨l, .null⟩, d => l.force d
  | ⟨l, .list cs⟩, d =>
    let r := l.force d
    match TreeNodeList.forcePick cs r.2 none with
    | none => r
    | some m => (addOpt r.1 m.1, m.2)
/-- The child-selection loop of TreeNode.force: strict improvement updates
the best candidate, and the loop breaks early once the best diff is zero. -/
def TreeNodeList.forcePick : TreeNodeList → PoseData → Option (Option Nat × PoseData) → Option (Option Nat × PoseData)
  | .nil, _, best => best
  | .cons c cs, d, best =>
    let r := TreeNode.force c d
    let best2 := if beatsBest r.1 best then some r else best
    if bestIsZero best2 then best2 else TreeNodeList.forcePick cs d best2
end

/-- TreeNode.hasNoLimits: no own limits and no children array. -/
def TreeNode.hasNoLimits : TreeNode → Bool
  | ⟨l, .null⟩ => l.hasNoLimits
  | ⟨_, .list _⟩ => false

/-- TreeNode.fromResult: no surviving child fails the node, a single child is
collapsed into its parent (the child limit extended by the parent limit), and
two or more children are kept under the parent limit. -/
def TreeNode.fromResult (limit : TreeLimit) (children : TreeNodeList) : Option TreeNode :=
  match children with
  | .nil => none
  | .cons c .nil => some ⟨c.limit.extend limit, c.children⟩
  | cs => some ⟨limit, .list cs⟩

mutual
/-- TreeNode.intersectionWithLimit: intersect the own limit on the keys of the
incoming limit; with prune set, matching values are removed from the result,
otherwise missing keys are added; children are then intersected with the new
limit pruned of the original own limit. -/
def TreeNode.intersectionWithLimit : TreeNode → TreeLimit → Bool → Option TreeNode
  | ⟨l, cs⟩, limit, prune =>
    match l.intersection limit with
    | none => none
    | some inter =>
      let newLimit := if prune then (inter.extend l).prune limit else (inter.extend l).extend limit
      match cs with
      | .null => some ⟨newLimit, .null⟩
      | .list children =>
        let childLimiter := newLimit.prune l
        TreeNode.fromResult newLimit (TreeNodeList.iwlList children childLimiter)
/-- this.children.map((child) => child.intersectionWithLimit(childLimiter, true))
followed by the not-null filter. -/
def TreeNodeList.iwlList : TreeNodeList → TreeLimit → TreeNodeList
  | .nil, _ => .nil
  | .cons c cs, limiter =>
    match TreeNode.intersectionWithLimit c limiter true with
    | none => TreeNodeList.iwlList cs limiter
    | some c2 => .cons c2 (TreeNodeList.iwlList cs limiter)
end

mutual
/-- Height of a node, used as the fuel bound for TreeNode.intersection. -/
def TreeNode.height : TreeNode → Nat
  | ⟨_, .null⟩ => 1
  | ⟨_, .list cs⟩ => 1 + TreeNodeList.heightMax cs
def TreeNodeList.heightMax : TreeNodeList → Nat
  | .nil => 0
  | .cons c cs => max (TreeNode.height c) (TreeNodeList.heightMax cs)
end

/-- children.map((child) => child.intersection(otherChild)) with the not-null
filter (the inner loop of the pairwise children intersection); the recursive
intersection is passed in as the function argument. -/
def TreeNodeList.interListF (f : TreeNode → TreeNode → Option TreeNode) : TreeNodeList → TreeNode → TreeNodeList
  | .nil, _ => .nil
  | .cons c cs, oc =>
    match f c oc with
    | none => TreeNodeList.interListF f cs oc
    | some r => .cons r (TreeNodeList.interListF f cs oc)

/-- other.children.flatMap of TreeNode.intersection: the outer loop over the
children of the second tree, concatenating the filtered inner results. -/
def TreeNodeList.interPairsF (f : TreeNode → TreeNode → Option TreeNode) : TreeNodeList → TreeNodeList → TreeNodeList
  | .nil, _ => .nil
  | .cons oc ocs, ncs =>
    TreeNodeList.append (TreeNodeList.interListF f ncs oc) (TreeNodeList.interPairsF f ocs ncs)

/-- TreeNode.intersection, with an explicit fuel argument: the recursion of
the source descends into the children of the second tree at every recursive
call, so any fuel of at least the height of the second tree makes the fuelled
function agree with the source; every use below supplies such a fuel. -/
def TreeNode.interFuel : Nat → TreeNode → TreeNode → Option TreeNode
  | 0, _, _ => none
  | fuel + 1, a, b =>
    match TreeNode.intersectionWithLimit a b.limit false with
    | none => none
    | some next =>
      match b.children with
      | .null => some next
      | .list bcs =>
        let nodes :=
          match next.children with
          | .null => TreeNodeList.iwlList bcs next.limit
          | .list ncs => TreeNodeList.interPairsF (fun x y => TreeNode.interFuel fuel x y) bcs ncs
        TreeNode.fromResult next.limit nodes

/-- TreeNode.intersection of the source: the fuel is the height of the second
tree, which the recursion structurally descends, so it never runs out. -/
def TreeNode.intersection (a b : TreeNode) : Option TreeNode :=
  TreeNode.interFuel (TreeNode.height b) a b

/-! ## Pose limit definitions and CreateTreeNode (appearanceLimit.ts)

AssetDefinitionPoseLimits is a record of per-key limits plus an optional list
of alternative option sub-definitions. The embedding keeps the bone limits
(already in interval-list form: FromLimit turns a plain number v into the
single interval [v, v]) with their flattened key names, and the recursive
options list; the optional arm and view fields of the source are further
entries of the same flattened key space and are subsumed by the key strings. -/

mutual
inductive PoseLimitDef where
  | mk (bones : List (String × Intervals)) (options : PoseLimitOptions)
inductive PoseLimitOptions where
  | null
  | list (os : PoseLimitDefList)
inductive PoseLimitDefList where
  | nil
  | cons (hd : PoseLimitDef) (tl : PoseLimitDefList)
end

/-- FromLimit: the flattened limit map of one definition level; bone names
are flattened with the bones. key space as in the source. -/
def FromLimit (bones : List (String × Intervals)) : TreeLimit :=
  ⟨bones.map (fun kv => ("bones." ++ kv.1, kv.2))⟩

mutual
/-- CreateTreeNode: a definition level becomes a node whose children are the
translated options (null when the definition has no options). -/
def CreateTreeNode : PoseLimitDef → TreeNode
  | ⟨bones, .null⟩ => ⟨FromLimit bones, .null⟩
  | ⟨bones, .list os⟩ => ⟨FromLimit bones, .list (CreateTreeNodeList os)⟩
/-- limits.options.map(CreateTreeNode). -/
def CreateTreeNodeList : PoseLimitDefList → TreeNodeList
  | .nil => .nil
  | .cons d ds => .cons (CreateTreeNode d) (CreateTreeNodeList ds)
end

/-! ## AppearanceLimitTree (appearanceLimit.ts)

The class holds a mutable root (TreeNode | null); the embedding passes the
root explicitly, and merge returns both the boolean result and the new tree. -/

structure AppearanceLimitTree where
  root : Option TreeNode

/-- A freshly constructed AppearanceLimitTree: the empty root node. -/
def AppearanceLimitTree.init : AppearanceLimitTree :=
  ⟨some ⟨⟨[]⟩, .null⟩⟩

/-- The valid getter: the root is not null. -/
def AppearanceLimitTree.valid (t : AppearanceLimitTree) : Bool :=
  t.root.isSome

/-- AppearanceLimitTree.validate on the flattened pose map. -/
def AppearanceLimitTree.validate (t : AppearanceLimitTree) (pose : PoseData) : Bool :=
  match t.root with
  | none => false
  | some n => n.validate pose

/-- AppearanceLimitTree.force on the flattened pose map: a null root returns
the pose unchanged; a zero total distance returns the pose unchanged; any
other result returns the clamped data with the changed flag set. -/
def AppearanceLimitTree.force (t : AppearanceLimitTree) (pose : PoseData) : PoseData × Bool :=
  match t.root with
  | none => (pose, false)
  | some n =>
    let r := n.force pose
    if r.1 = some 0 then (pose, false) else (r.2, true)

/-- AppearanceLimitTree.merge: a null root fails immediately; an absent
limits argument succeeds without change; otherwise the root is replaced by
its intersection with the tree created from the limits, and the result is
whether the new root is not null. -/
def AppearanceLimitTree.merge (t : AppearanceLimitTree) (limits : Option PoseLimitDef) : Bool × AppearanceLimitTree :=
  match t.root with
  | none => (false, t)
  | some root =>
    match limits with
    | none => (true, t)
    | some ls =>
      let r := root.intersection (CreateTreeNode ls)
      (r.isSome, ⟨r⟩)

/-- A sequence of merge calls against the same tree instance. -/
def AppearanceLimitTree.mergeSeq (t : AppearanceLimitTree) : List (Option PoseLimitDef) → AppearanceLimitTree
  | [] => t
  | l :: ls => AppearanceLimitTree.mergeSeq (t.merge l).2 ls

/-! ## Concrete pose-limit definitions exercising merge

The definitions below are well-formed AssetDefinitionPoseLimits values (bone
limits plus nested options) used to evaluate the constraint-tree claims. -/

/-- A flat definition: bone x limited to [0, 100]. -/
def limitFlatX : PoseLimitDef := .mk [("x", [(0, 100)])] .null

/-- A grandchild option limiting bone x to the given intervals. -/
def limitGrandchild (ivs : Intervals) : PoseLimitDef := .mk [("x", ivs)] .null

/-- Nested definition: x in [0, 100], one option on bone y whose own single
option demands x in [200, 300] (an infeasible combination with the root). -/
def limitNestedOne : PoseLimitDef :=
  .mk [("x", [(0, 100)])]
    (.list (.cons (.mk [("y", [(0, 1)])]
      (.list (.cons (limitGrandchild [(200, 300)]) .nil))) .nil))

/-- Nested definition: x in [0, 100], one option on bone y with two options
demanding x in [200, 300] or x in [400, 500]. -/
def limitNestedTwo : PoseLimitDef :=
  .mk [("x", [(0, 100)])]
    (.list (.cons (.mk [("y", [(0, 1)])]
      (.list (.cons (limitGrandchild [(200, 300)])
        (.cons (limitGrandchild [(400, 500)]) .nil)))) .nil))

/-- The tree after merging the flat definition into a fresh tree. -/
def treeFlatX : AppearanceLimitTree := (AppearanceLimitTree.init.merge (some limitFlatX)).2

/-- Result of merging the one-grandchild nested definition into treeFlatX. -/
def mergeNestedOne : Bool × AppearanceLimitTree := treeFlatX.merge (some limitNestedOne)

/-- Result of merging the two-grandchild nested definition into treeFlatX. -/
def mergeNestedTwo : Bool × AppearanceLimitTree := treeFlatX.merge (some limitNestedTwo)

/-- Two flat definitions with disjoint x ranges, for an infeasible merge. -/
def limitLowX : PoseLimitDef := .mk [("x", [(0, 10)])] .null

/-- The second, disjoint flat definition. -/
def limitHighX : PoseLimitDef := .mk [("x", [(20, 30)])] .null

/-- Result of merging two disjoint flat definitions into a fresh tree: the
intersection is empty, so the root becomes null. -/
def mergeDisjoint : Bool × AppearanceLimitTree :=
  ((AppearanceLimitTree.init.merge (some limitLowX)).2.merge (some limitHighX))

/-! ## C2, C3, C4, C5 -/

/-- C2: the claim that force on a valid tree always returns a pose passing
validate fails on the code. After merging limitFlatX and then limitNestedTwo
(both merges succeed, the tree stays valid), the grandchild limits on x are
never intersected with the root limit x in [0, 100]: force of the pose x = 50
clamps to x = 200 following the nearest grandchild, and validate rejects that
result at the root limit. -/
theorem force_result_violates_validate_on_merged_tree :
    mergeNestedTwo.1 = true
    ∧ mergeNestedTwo.2.valid = true
    ∧ mergeNestedTwo.2.force [("bones.x", 50)] = ([("bones.x", 200)], true)
    ∧ mergeNestedTwo.2.validate (mergeNestedTwo.2.force [("bones.x", 50)]).1 = false :=
  ⟨rfl, rfl, rfl, rfl⟩

/-- C3 (counterexample): after a merge yields an empty intersection (root
null), force does report the input pose as unchanged — it returns the pose
with the changed flag false — contrary to the claim that force then treats
every pose as unacceptable. -/
theorem invalid_tree_force_reports_unchanged :
    mergeDisjoint.1 = false
    ∧ mergeDisjoint.2.root = none
    ∧ mergeDisjoint.2.force [("bones.x", 5)] = ([("bones.x", 5)], false) :=
  ⟨rfl, rfl, rfl⟩

/-- C3 (amended): once the root is null, merge returns false and leaves the
root null, validate returns false for every pose, and force returns the input
pose unchanged with the changed flag false (it does not clamp). -/
theorem invalid_tree_fails_closed (t : AppearanceLimitTree) (h : t.root = none)
    (pose : PoseData) (l : Option PoseLimitDef) :
    (t.merge l).1 = false
    ∧ (t.merge l).2.root = none
    ∧ t.validate pose = false
    ∧ t.force pose = (pose, false) := by
  obtain ⟨root⟩ := t
  cases h
  exact ⟨rfl, rfl, rfl, rfl⟩

/-- Witness for the amended C3 at the concrete tree produced by the failed
merge of two disjoint x limits. -/
theorem invalid_tree_fails_closed_witness :
    (mergeDisjoint.2.merge none).1 = false
    ∧ (mergeDisjoint.2.merge none).2.root = none
    ∧ mergeDisjoint.2.validate [("bones.x", 5)] = false
    ∧ mergeDisjoint.2.force [("bones.x", 5)] = ([("bones.x", 5)], false) :=
  invalid_tree_fails_closed mergeDisjoint.2 rfl [("bones.x", 5)] none

/-- C4: the claim that merge only ever shrinks the validated pose space fails
on the code. Merging limitNestedOne into treeFlatX succeeds, and the merged
tree validates the pose x = 250, which treeFlatX (x restricted to [0, 100])
rejected: the single-child collapse keeps the grandchild limit x in
[200, 300] and silently drops the root limit for x. -/
theorem merge_not_monotone_nested_options :
    mergeNestedOne.1 = true
    ∧ mergeNestedOne.2.validate [("bones.x", 250)] = true
    ∧ treeFlatX.validate [("bones.x", 250)] = false :=
  ⟨rfl, rfl, rfl⟩

/-- Merging anything into a tree whose root is null returns false and leaves
the tree unchanged. -/
theorem AppearanceLimitTree.merge_none_root (t : AppearanceLimitTree) (h : t.root = none)
    (l : Option PoseLimitDef) : t.merge l = (false, t) := by
  obtain ⟨root⟩ := t
  cases h
  rfl

/-- C5: invalidity is terminal. Whenever the root of a tree has become null,
every further sequence of merge operations leaves the root null (and the
tree invalid). -/
theorem invalid_root_terminal_under_merges (t : AppearanceLimitTree) (h : t.root = none)
    (ls : List (Option PoseLimitDef)) :
    (t.mergeSeq ls).root = none ∧ (t.mergeSeq ls).valid = false := by
  induction ls generalizing t with
  | nil => exact ⟨h, by simp [AppearanceLimitTree.mergeSeq, AppearanceLimitTree.valid, h]⟩
  | cons l ls ih =>
    have hm := AppearanceLimitTree.merge_none_root t h l
    have : AppearanceLimitTree.mergeSeq t (l :: ls) = AppearanceLimitTree.mergeSeq (t.merge l).2 ls := rfl
    rw [this, hm]
    exact ih t h

/-- Witness for C5 at the concrete invalid tree produced by the failed merge
of two disjoint x limits, with a further nontrivial merge sequence. -/
theorem invalid_root_terminal_under_merges_witness :
    (mergeDisjoint.2.mergeSeq [some limitFlatX, none, some limitNestedOne]).root = none
    ∧ (mergeDisjoint.2.mergeSeq [some limitFlatX, none, some limitNestedOne]).valid = false :=
  invalid_root_terminal_under_merges mergeDisjoint.2 rfl [some limitFlatX, none, some limitNestedOne]

/-! ## Items, assets and bundles

The Item class and the asset definitions live in files that are not among the
sources (item.ts, definitions.ts); the parts the claims need are modelled
from the spec: an Asset is an immutable definition with an id and a size
class; an Item wraps an asset reference plus its per-instance bundle payload
(color and module data, collapsed into one opaque field); an ItemBundle is
the serialized record {id, asset id, payload}. -/

/-- Modelled from the spec: an asset definition with its id and size class
(definitions.ts is not among the sources). -/
structure Asset where
  id : String
  size : String
deriving DecidableEq

/-- Modelled from the spec: the serialized ItemBundle record {id, asset,
color[], modules} with the non-structural payload collapsed into data. -/
structure ItemBundle where
  id : String
  asset : String
  data : String
deriving DecidableEq

/-- Modelled from the spec: an Item instance {id, asset ref, payload}
(item.ts is not among the sources). -/
structure Item where
  id : String
  asset : Asset
  data : String
deriving DecidableEq

/-- Modelled from the spec: Item.exportToBundle serializes the item back to
the plain record {id, asset id, payload}. -/
def Item.exportToBundle (i : Item) : ItemBundle :=
  ⟨i.id, i.asset.id, i.data⟩

/-- The asset manager: lookup of asset definitions by id. -/
structure AssetManager where
  assets : List (String × Asset)

/-- AssetManager.getAssetById. -/
def AssetManager.getAssetById (m : AssetManager) (id : String) : Option Asset :=
  alGet m.assets id

/-- Modelled from the spec: AssetManager.createItem builds the Item instance
for a bundle whose asset resolved, keeping the bundle payload. -/
def AssetManager.createItem (_m : AssetManager) (id : String) (asset : Asset) (bundle : ItemBundle) : Item :=
  ⟨id, asset, bundle.data⟩

/-! ## Appearance validation results (appearanceValidation.ts is not among
the sources; the result shape is taken from its uses in part_009) -/

/-- The typed problem of a failed validation, with the fields the storage
validation of part_009 writes into it. -/
inductive AppearanceValidationProblem where
  | invalid
  | tooManyItems (asset : Option String) (limit : Nat)
  | contentNotAllowed (asset : String)
  | itemProblem (tag : String)
deriving DecidableEq

/-- AppearanceValidationResult: success, or a failure with a typed problem. -/
inductive AppearanceValidationResult where
  | success
  | failure (problem : AppearanceValidationProblem)
deriving DecidableEq

/-- Modelled from the spec: AppearanceValidationCombineResults keeps the
first failure and otherwise passes the second result through. -/
def AppearanceValidationCombineResults (a b : AppearanceValidationResult) : AppearanceValidationResult :=
  match a with
  | .success => b
  | .failure p => .failure p

/-! ## ValidateStorage (src/unnamed/part_009)

The size-class record AssetSizeMapping and the per-item validate method are
not among the sources, so they are passed in explicitly: sizeMapping is the
numeric encoding of the size classes and validateItem the item validation
(its second argument is the isWorn flag, false for stored contents). -/

/-- The storage module configuration {maxCount, maxAcceptedSize}. -/
structure IModuleConfigStorage where
  maxCount : Nat
  maxAcceptedSize : String
deriving DecidableEq

/-- The duplicate-id loop at the top of ValidateStorage: walk the contents
with the set of ids seen so far and report whether some id repeats. -/
def storageHasDuplicateId : List Item → List String → Bool
  | [], _ => false
  | i :: rest, seen => if seen.contains i.id then true else storageHasDuplicateId rest (i.id :: seen)

/-- The oversize search of ValidateStorage: the first stored item whose
size-class number (default 99) exceeds the accepted limit (default 0). -/
def storageFirstOversize (sizeMapping : List (String × Nat)) (config : IModuleConfigStorage)
    (contents : List Item) : Option Item :=
  contents.find? (fun i =>
    ((alGet sizeMapping i.asset.size).getD 99) > ((alGet sizeMapping config.maxAcceptedSize).getD 0))

/-- ValidateStorage: duplicate ids fail as invalid; then a contents count
over maxCount fails as tooManyItems carrying the limit; then the first item
over the accepted size class fails as contentNotAllowed carrying its asset
id; otherwise the per-item validation results are combined. -/
def ValidateStorage (sizeMapping : List (String × Nat))
    (validateItem : Item → Bool → AppearanceValidationResult)
    (contents : List Item) (config : IModuleConfigStorage) : AppearanceValidationResult :=
  if storageHasDuplicateId contents [] then .failure .invalid
  else if contents.length > config.maxCount then .failure (.tooManyItems none config.maxCount)
  else
    (storageFirstOversize sizeMapping config contents).elim
      ((contents.map (fun i => validateItem i false)).foldl AppearanceValidationCombineResults .success)
      (fun problematic => .failure (.contentNotAllowed problematic.asset.id))

/-- Folding the combine over validation results yields success exactly when
the start value and every folded result are success. -/
theorem combineResults_foldl_success (rs : List AppearanceValidationResult)
    (a : AppearanceValidationResult) :
    rs.foldl AppearanceValidationCombineResults a = .success ↔
      a = .success ∧ ∀ r ∈ rs, r = .success := by
  induction rs generalizing a with
  | nil => simp
  | cons r rs ih =>
    rw [List.foldl_cons, ih]
    cases a with
    | success => simp [AppearanceValidationCombineResults]
    | failure p => simp [AppearanceValidationCombineResults]

/-! ## C7: concrete storage inputs -/

/-- A small asset for the storage examples. -/
def storageAssetSmall : Asset := ⟨"a1", "small"⟩

/-- A large asset for the storage examples. -/
def storageAssetLarge : Asset := ⟨"a2", "large"⟩

/-- The size-class numbers used by the storage examples. -/
def storageSizes : List (String × Nat) := [("small", 1), ("large", 3)]

/-- A storage configuration: at most two items, small ones only. -/
def storageCfg : IModuleConfigStorage := ⟨2, "small"⟩

/-- Three stored items where the first two share an id. -/
def storageDupContents : List Item :=
  [⟨"i1", storageAssetSmall, "d"⟩, ⟨"i1", storageAssetSmall, "d"⟩, ⟨"i2", storageAssetSmall, "d"⟩]

/-- Three stored items with distinct ids. -/
def storageThreeDistinct : List Item :=
  [⟨"i1", storageAssetSmall, "d"⟩, ⟨"i2", storageAssetSmall, "d"⟩, ⟨"i3", storageAssetSmall, "d"⟩]

/-- A single stored item whose asset exceeds the accepted size class. -/
def storageOversizeContents : List Item :=
  [⟨"i1", storageAssetLarge, "d"⟩]

/-- An item validation that always succeeds. -/
def validateItemAlwaysOk : Item → Bool → AppearanceValidationResult :=
  fun _ _ => .success

/-- C7 (counterexample): with three stored items of which two share an id and
maxCount 2, the count exceeds the limit, yet ValidateStorage reports the
duplicate-id problem (invalid), not tooManyItems with the limit as the claim
states for every over-count contents list. -/
theorem storage_duplicate_overrides_tooManyItems :
    ValidateStorage storageSizes validateItemAlwaysOk storageDupContents storageCfg
      = .failure .invalid
    ∧ storageDupContents.length > storageCfg.maxCount
    ∧ ValidateStorage storageSizes validateItemAlwaysOk storageDupContents storageCfg
      ≠ .failure (.tooManyItems none storageCfg.maxCount) := by
  refine ⟨rfl, by decide, by decide⟩

/-- C7 (amended): the storage checks run in priority order. Duplicate ids
fail as invalid; otherwise a contents count over maxCount fails as
tooManyItems carrying the configured limit; otherwise the first item over
the accepted size class fails as contentNotAllowed carrying its asset id;
and the validation succeeds exactly when none of these fire and every
contained item itself validates. -/
theorem ValidateStorage_checks_in_priority_order
    (sm : List (String × Nat)) (vI : Item → Bool → AppearanceValidationResult)
    (contents : List Item) (config : IModuleConfigStorage) :
    (storageHasDuplicateId contents [] = true →
      ValidateStorage sm vI contents config = .failure .invalid)
    ∧ (storageHasDuplicateId contents [] = false → contents.length > config.maxCount →
      ValidateStorage sm vI contents config = .failure (.tooManyItems none config.maxCount))
    ∧ (∀ i, storageHasDuplicateId contents [] = false → ¬(contents.length > config.maxCount) →
      storageFirstOversize sm config contents = some i →
      ValidateStorage sm vI contents config = .failure (.contentNotAllowed i.asset.id))
    ∧ (ValidateStorage sm vI contents config = .success ↔
      (storageHasDuplicateId contents [] = false ∧ ¬(contents.length > config.maxCount)
        ∧ storageFirstOversize sm config contents = none
        ∧ ∀ i ∈ contents, vI i false = .success)) := by
  refine ⟨?_, ?_, ?_, ?_⟩
  · intro hdup
    simp [ValidateStorage, hdup]
  · intro hdup hcount
    simp [ValidateStorage, hdup, hcount]
  · intro i hdup hcount hover
    simp [ValidateStorage, hdup, hcount, hover]
  · constructor
    · intro hs
      by_cases hdup : storageHasDuplicateId contents [] = true
      · simp [ValidateStorage, hdup] at hs
      · have hdup2 : storageHasDuplicateId contents [] = false := by simpa using hdup
        by_cases hcount : contents.length > config.maxCount
        · simp [ValidateStorage, hdup2, hcount] at hs
        · cases hover : storageFirstOversize sm config contents with
          | some i => simp [ValidateStorage, hdup2, hcount, hover] at hs
          | none =>
            rw [ValidateStorage.eq_def, if_neg (by simp [hdup2]), if_neg hcount, hover,
              Option.elim_none, combineResults_foldl_success] at hs
            refine ⟨hdup2, hcount, rfl, ?_⟩
            intro i hi
            exact hs.2 (vI i false) (List.mem_map_of_mem _ hi)
    · rintro ⟨hdup, hcount, hover, hall⟩
      rw [ValidateStorage.eq_def, if_neg (by simp [hdup]), if_neg hcount, hover,
        Option.elim_none, combineResults_foldl_success]
      refine ⟨rfl, ?_⟩
      intro r hr
      obtain ⟨i, hi, rfl⟩ := List.mem_map.mp hr
      exact hall i hi

/-- Witness for the amended C7, applying each branch of the
characterization at a concrete storage content list. -/
theorem ValidateStorage_checks_in_priority_order_witness :
    ValidateStorage storageSizes validateItemAlwaysOk storageDupContents storageCfg
      = .failure .invalid
    ∧ ValidateStorage storageSizes validateItemAlwaysOk storageThreeDistinct storageCfg
      = .failure (.tooManyItems none 2)
    ∧ ValidateStorage storageSizes validateItemAlwaysOk storageOversizeContents storageCfg
      = .failure (.contentNotAllowed ("a2")) :=
  ⟨(ValidateStorage_checks_in_priority_order storageSizes validateItemAlwaysOk storageDupContents storageCfg).1
      (by decide),
   (ValidateStorage_checks_in_priority_order storageSizes validateItemAlwaysOk storageThreeDistinct storageCfg).2.1
      (by decide) (by decide),
   (ValidateStorage_checks_in_priority_order storageSizes validateItemAlwaysOk storageOversizeContents storageCfg).2.2.1
      ⟨"i1", storageAssetLarge, "d"⟩ (by decide) (by decide) rfl⟩

/-! ## Room inventory state (src/unnamed/part_009)

AssetFrameworkRoomState is embedded with its items and asset manager; the
item validation is threaded as a parameter since item.ts is not among the
sources. ValidateRoomInventoryItems and RoomInventoryLoadAndValidate live in
roomValidation.ts, which is not among the sources either, so they are
modelled from the spec. -/

/-- The serialized RoomInventoryBundle {items}. -/
structure RoomInventoryBundle where
  items : List ItemBundle
deriving DecidableEq

/-- Modelled from the spec: ValidateRoomInventoryItems requires item ids
unique within the container scope and every item to validate. -/
def ValidateRoomInventoryItems (validateItem : Item → Bool → AppearanceValidationResult)
    (items : List Item) : AppearanceValidationResult :=
  if storageHasDuplicateId items [] then .failure .invalid
  else (items.map (fun i => validateItem i false)).foldl AppearanceValidationCombineResults .success

/-- Modelled from the spec: RoomInventoryLoadAndValidate is the permissive
load-time cleanup — walk the loaded items in order and keep an item exactly
when appending it keeps the room inventory valid, dropping it with a logged
warning otherwise. -/
def RoomInventoryLoadAndValidate (validateItem : Item → Bool → AppearanceValidationResult)
    (items : List Item) : List Item :=
  items.foldl
    (fun kept i =>
      if ValidateRoomInventoryItems validateItem (kept ++ [i]) = .success then kept ++ [i] else kept)
    []

/-- AssetFrameworkRoomState: the immutable room snapshot {assetManager,
items}. -/
structure AssetFrameworkRoomState where
  assetManager : AssetManager
  items : List Item

/-- AssetFrameworkRoomState.validate: validate the room inventory items. -/
def AssetFrameworkRoomState.validate (s : AssetFrameworkRoomState)
    (validateItem : Item → Bool → AppearanceValidationResult) : AppearanceValidationResult :=
  ValidateRoomInventoryItems validateItem s.items

/-- AssetFrameworkRoomState.exportToBundle: serialize every item. -/
def AssetFrameworkRoomState.exportToBundle (s : AssetFrameworkRoomState) : RoomInventoryBundle :=
  ⟨s.items.map Item.exportToBundle⟩

/-- AssetFrameworkRoomState.loadFromBundle: resolve every bundle item against
the asset manager, skipping (with a logged warning) items whose asset id is
unknown, then run the permissive load-time cleanup over the loaded items. -/
def AssetFrameworkRoomState.loadFromBundle
    (validateItem : Item → Bool → AppearanceValidationResult)
    (m : AssetManager) (bundle : RoomInventoryBundle) : AssetFrameworkRoomState :=
  let loadedItems := bundle.items.filterMap
    (fun ib => (m.getAssetById ib.asset).map (fun a => m.createItem ib.id a ib))
  ⟨m, RoomInventoryLoadAndValidate validateItem loadedItems⟩

/-- The duplicate-id check is closed under dropping a suffix, for any set of
already-seen ids. -/
theorem storageHasDuplicateId_append (xs ys : List Item) (seen : List String)
    (h : storageHasDuplicateId (xs ++ ys) seen = false) :
    storageHasDuplicateId xs seen = false := by
  induction xs generalizing seen with
  | nil => rfl
  | cons x xs ih =>
    rw [List.cons_append, storageHasDuplicateId] at h
    rw [storageHasDuplicateId]
    by_cases hc : seen.contains x.id
    · rw [if_pos hc] at h
      exact absurd h (by simp)
    · rw [if_neg hc] at h
      rw [if_neg hc]
      exact ih (x.id :: seen) h

/-- Room inventory validation succeeds exactly when the ids are duplicate
free and every item validates. -/
theorem ValidateRoomInventoryItems_success_iff
    (vI : Item → Bool → AppearanceValidationResult) (items : List Item) :
    ValidateRoomInventoryItems vI items = .success ↔
      (storageHasDuplicateId items [] = false ∧ ∀ i ∈ items, vI i false = .success) := by
  constructor
  · intro hs
    by_cases hdup : storageHasDuplicateId items [] = true
    · simp [ValidateRoomInventoryItems, hdup] at hs
    · have hdup2 : storageHasDuplicateId items [] = false := by simpa using hdup
      rw [ValidateRoomInventoryItems, if_neg (by simp [hdup2]), combineResults_foldl_success] at hs
      refine ⟨hdup2, ?_⟩
      intro i hi
      exact hs.2 (vI i false) (List.mem_map_of_mem _ hi)
  · rintro ⟨hdup, hall⟩
    rw [ValidateRoomInventoryItems, if_neg (by simp [hdup]), combineResults_foldl_success]
    refine ⟨rfl, ?_⟩
    intro r hr
    obtain ⟨i, hi, rfl⟩ := List.mem_map.mp hr
    exact hall i hi

/-- The load-time cleanup keeps every item of an already-valid item list. -/
theorem RoomInventoryLoadAndValidate_keeps_valid
    (vI : Item → Bool → AppearanceValidationResult) (items kept : List Item)
    (h : ValidateRoomInventoryItems vI (kept ++ items) = .success) :
    items.foldl
      (fun ks i =>
        if ValidateRoomInventoryItems vI (ks ++ [i]) = .success then ks ++ [i] else ks)
      kept = kept ++ items := by
  induction items generalizing kept with
  | nil => simp
  | cons i is ih =>
    have hstep : ValidateRoomInventoryItems vI (kept ++ [i]) = .success := by
      rw [ValidateRoomInventoryItems_success_iff] at h ⊢
      refine ⟨?_, ?_⟩
      · have : kept ++ [i] ++ is = kept ++ i :: is := by simp
        exact storageHasDuplicateId_append (kept ++ [i]) is [] (by rw [this]; exact h.1)
      · intro j hj
        refine h.2 j ?_
        rcases List.mem_append.mp hj with hk | hi
        · exact List.mem_append.mpr (Or.inl hk)
        · simp only [List.mem_singleton] at hi
          subst hi
          exact List.mem_append.mpr (Or.inr (List.mem_cons_self _ _))
    rw [List.foldl_cons, if_pos hstep]
    have harr : (kept ++ [i]) ++ is = kept ++ i :: is := by simp
    rw [ih (kept ++ [i]) (by rw [harr]; exact h), harr]

/-- Reloading the exported bundle of a state whose items all resolve against
the asset manager reproduces exactly the original items. -/
theorem load_of_export_resolves (m : AssetManager) (items : List Item)
    (h : ∀ i ∈ items, m.getAssetById i.asset.id = some i.asset) :
    (items.map Item.exportToBundle).filterMap
      (fun ib => (m.getAssetById ib.asset).map (fun a => m.createItem ib.id a ib)) = items := by
  induction items with
  | nil => rfl
  | cons i is ih =>
    rw [List.map_cons, List.filterMap_cons]
    have hi : m.getAssetById i.exportToBundle.asset = some i.asset := h i (List.mem_cons_self _ _)
    rw [hi, Option.map_some', ih (fun j hj => h j (List.mem_cons_of_mem _ hj))]
    rfl

/-- C6: bundle round-trip. For every room state s that validates and whose
item assets resolve to themselves in the asset manager of s (as holds for
any state loaded or produced through that manager), loading the exported
bundle and exporting again yields the original bundle. -/
theorem roomState_bundle_roundtrip
    (vI : Item → Bool → AppearanceValidationResult) (s : AssetFrameworkRoomState)
    (hvalid : s.validate vI = .success)
    (hassets : ∀ i ∈ s.items, s.assetManager.getAssetById i.asset.id = some i.asset) :
    (AssetFrameworkRoomState.loadFromBundle vI s.assetManager s.exportToBundle).exportToBundle
      = s.exportToBundle := by
  simp only [AssetFrameworkRoomState.loadFromBundle, AssetFrameworkRoomState.exportToBundle]
  rw [load_of_export_resolves s.assetManager s.items hassets]
  have h2 : RoomInventoryLoadAndValidate vI s.items = s.items := by
    have h3 := RoomInventoryLoadAndValidate_keeps_valid vI s.items [] (by simpa using hvalid)
    simpa [RoomInventoryLoadAndValidate] using h3
  rw [h2]

/-- A concrete asset manager holding one small asset. -/
def roundtripManager : AssetManager := ⟨[("a1", ⟨"a1", "small"⟩)]⟩

/-- A concrete valid one-item room state over that manager. -/
def roundtripState : AssetFrameworkRoomState :=
  ⟨roundtripManager, [⟨"i1", ⟨"a1", "small"⟩, "d"⟩]⟩

/-- Witness for C6 at a concrete one-item room state. -/
theorem roomState_bundle_roundtrip_witness :
    (AssetFrameworkRoomState.loadFromBundle validateItemAlwaysOk roundtripState.assetManager
        roundtripState.exportToBundle).exportToBundle
      = roundtripState.exportToBundle :=
  roomState_bundle_roundtrip validateItemAlwaysOk roundtripState (by decide)
    (by intro i hi; fin_cases hi; rfl)

/-- The load-time cleanup fold preserves validity of the kept list. -/
theorem roomCleanup_preserves_valid
    (vI : Item → Bool → AppearanceValidationResult) (loaded : List Item) :
    ∀ kept, ValidateRoomInventoryItems vI kept = .success →
      ValidateRoomInventoryItems vI
        (loaded.foldl
          (fun ks i =>
            if ValidateRoomInventoryItems vI (ks ++ [i]) = .success then ks ++ [i] else ks)
          kept) = .success := by
  induction loaded with
  | nil => intro kept h; simpa using h
  | cons i is ih =>
    intro kept hbase
    rw [List.foldl_cons]
    by_cases hc : ValidateRoomInventoryItems vI (kept ++ [i]) = .success
    · rw [if_pos hc]
      exact ih (kept ++ [i]) hc
    · rw [if_neg hc]
      exact ih kept hbase

/-- C8: loading a room inventory bundle never aborts and always produces a
valid state: the load is a total function that drops items whose asset id is
unknown and items failing the load-time cleanup, and its result always
validates, so the fatal assertion that the state is invalid after load is
unreachable. -/
theorem loadFromBundle_always_valid
    (vI : Item → Bool → AppearanceValidationResult)
    (m : AssetManager) (bundle : RoomInventoryBundle) :
    (AssetFrameworkRoomState.loadFromBundle vI m bundle).validate vI = .success := by
  have h := roomCleanup_preserves_valid vI
    (bundle.items.filterMap
      (fun ib => (m.getAssetById ib.asset).map (fun a => m.createItem ib.id a ib)))
    [] rfl
  simpa [AssetFrameworkRoomState.loadFromBundle, AssetFrameworkRoomState.validate,
    RoomInventoryLoadAndValidate] using h

/-! ## DoAppearanceAction (src/unnamed/part_006)

The Appearance class of appearance.ts is not among the sources; it is
modelled from the spec as an abstract state type with the check and mutation
methods DoAppearanceAction calls, the checks pure and the mutations
returning the new state. The context maps character ids to their Appearance
(its roomInventory field is the null placeholder of the source and is
omitted). The function returns its boolean result together with the context
holding any mutated appearance. -/

/-- The action. type string ('pose' or 'body') handed to importPose. -/
inductive PoseActionType where
  | pose
  | body
deriving DecidableEq

/-- The appearance action schema: a tagged union on type, each variant
carrying its target character id. -/
inductive AppearanceAction where
  | create (target : String) (itemId : String) (asset : String)
  | delete (target : String) (itemId : String)
  | pose (target : String) (poseMap : List (String × Int))
  | body (target : String) (poseMap : List (String × Int))
deriving DecidableEq

/-- The target selector of an action. -/
def AppearanceAction.target : AppearanceAction → String
  | .create t _ _ => t
  | .delete t _ => t
  | .pose t _ => t
  | .body t _ => t

/-- Modelled from the spec: the Appearance methods DoAppearanceAction uses,
over an abstract appearance state type. -/
structure AppearanceOps (A : Type) where
  allowCreateItem : A → String → Asset → Bool
  createItem : A → String → Asset → A
  allowRemoveItem : A → String → Bool
  removeItem : A → String → A
  importPose : A → List (String × Int) → PoseActionType → A

/-- The AppearanceActionContext: the acting player and the character map. -/
structure AppearanceActionContext (A : Type) where
  player : String
  characters : List (String × A)

/-- Replace the appearance of one character in the context (the in-place
mutation of the source becomes an explicit context update). -/
def AppearanceActionContext.withCharacter {A : Type} (c : AppearanceActionContext A)
    (id : String) (ap : A) : AppearanceActionContext A :=
  ⟨c.player, alSet c.characters id ap⟩

/-- DoAppearanceAction: resolve the target appearance (failing when absent),
dispatch on the action type, run the checks of that branch, and apply the
mutation only when not a dry run; the boolean result is identical in both
modes. -/
def DoAppearanceAction {A : Type} (ops : AppearanceOps A) (action : AppearanceAction)
    (context : AppearanceActionContext A) (assetManager : AssetManager)
    (dryRun : Bool) : Bool × AppearanceActionContext A :=
  match alGet context.characters action.target with
  | none => (false, context)
  | some appearance =>
    match action with
    | .create t itemId assetId =>
      match assetManager.getAssetById assetId with
      | none => (false, context)
      | some asset =>
        if !ops.allowCreateItem appearance itemId asset then (false, context)
        else if dryRun then (true, context)
        else (true, context.withCharacter t (ops.createItem appearance itemId asset))
    | .delete t itemId =>
      if !ops.allowRemoveItem appearance itemId then (false, context)
      else if dryRun then (true, context)
      else (true, context.withCharacter t (ops.removeItem appearance itemId))
    | .pose t poseMap =>
      if context.player ≠ t then (false, context)
      else if dryRun then (true, context)
      else (true, context.withCharacter t (ops.importPose appearance poseMap .pose))
    | .body t poseMap =>
      if context.player ≠ t then (false, context)
      else if dryRun then (true, context)
      else (true, context.withCharacter t (ops.importPose appearance poseMap .body))

/-- C1: a dry run never changes observable state — it returns the context
unchanged — and its boolean result is exactly the result of the validation
phase of a non-dry-run call on the same inputs (the two runs share every
check and differ only in skipping the mutation). -/
theorem dryRun_pure_and_equals_validation {A : Type} (ops : AppearanceOps A)
    (action : AppearanceAction) (context : AppearanceActionContext A) (m : AssetManager) :
    DoAppearanceAction ops action context m true
      = ((DoAppearanceAction ops action context m false).1, context) := by
  cases action with
  | create t itemId assetId =>
    simp only [DoAppearanceAction, AppearanceAction.target]
    cases alGet context.characters t with
    | none => rfl
    | some ap =>
      cases m.getAssetById assetId with
      | none => rfl
      | some asset =>
        by_cases hallow : ops.allowCreateItem ap itemId asset = true
        · simp [hallow]
        · simp [hallow]
  | delete t itemId =>
    simp only [DoAppearanceAction, AppearanceAction.target]
    cases alGet context.characters t with
    | none => rfl
    | some ap =>
      by_cases hallow : ops.allowRemoveItem ap itemId = true
      · simp [hallow]
      · simp [hallow]
  | pose t p =>
    simp only [DoAppearanceAction, AppearanceAction.target]
    cases alGet context.characters t with
    | none => rfl
    | some ap =>
      by_cases hp : context.player = t
      · simp [hp]
      · simp [hp]
  | body t p =>
    simp only [DoAppearanceAction, AppearanceAction.target]
    cases alGet context.characters t with
    | none => rfl
    | some ap =>
      by_cases hp : context.player = t
      · simp [hp]
      · simp [hp]

/-- C9: when the target of an action cannot be resolved in the context, the
action fails (the boolean failure result is the only failure signal of this
code version) and the state is unchanged, in dry and real runs alike. -/
theorem target_not_found_fails {A : Type} (ops : AppearanceOps A)
    (action : AppearanceAction) (context : AppearanceActionContext A) (m : AssetManager)
    (dryRun : Bool) (h : alGet context.characters action.target = none) :
    DoAppearanceAction ops action context m dryRun = (false, context) := by
  unfold DoAppearanceAction
  rw [h]

/-- Appearance operations over the unit state, for concrete witnesses. -/
def unitAppearanceOps : AppearanceOps Unit :=
  ⟨fun _ _ _ => true, fun _ _ _ => (), fun _ _ => true, fun _ _ => (), fun _ _ _ => ()⟩

/-- Witness for C9: a create action whose target is missing from the
context map fails and leaves the context unchanged. -/
theorem target_not_found_fails_witness :
    DoAppearanceAction unitAppearanceOps (.create ("c2") ("i1") ("a1"))
      (⟨"c1", [("c1", ())]⟩ : AppearanceActionContext Unit) ⟨[]⟩ false
      = (false, ⟨"c1", [("c1", ())]⟩) :=
  target_not_found_fails unitAppearanceOps (.create ("c2") ("i1") ("a1"))
    ⟨"c1", [("c1", ())]⟩ ⟨[]⟩ false rfl

/-- C10: pose and body actions are self-only — whenever the acting player
differs from the action target, DoAppearanceAction fails and changes no
state, in dry and real runs alike, regardless of the appearance operations,
context contents and asset manager. -/
theorem pose_body_self_only {A : Type} (ops : AppearanceOps A) (t : String)
    (p : List (String × Int)) (context : AppearanceActionContext A) (m : AssetManager)
    (dryRun : Bool) (h : context.player ≠ t) :
    DoAppearanceAction ops (.pose t p) context m dryRun = (false, context)
    ∧ DoAppearanceAction ops (.body t p) context m dryRun = (false, context) := by
  constructor <;>
  · simp only [DoAppearanceAction, AppearanceAction.target]
    cases alGet context.characters t with
    | none => rfl
    | some ap => simp [h]

/-- Witness for C10: posing a character other than oneself fails although
that character is present in the context. -/
theorem pose_body_self_only_witness :
    DoAppearanceAction unitAppearanceOps (.pose ("c2") [("bones.x", 5)])
      (⟨"c1", [("c2", ())]⟩ : AppearanceActionContext Unit) ⟨[]⟩ true
      = (false, ⟨"c1", [("c2", ())]⟩)
    ∧ DoAppearanceAction unitAppearanceOps (.body ("c2") [("bones.x", 5)])
      (⟨"c1", [("c2", ())]⟩ : AppearanceActionContext Unit) ⟨[]⟩ true
      = (false, ⟨"c1", [("c2", ())]⟩) :=
  pose_body_self_only unitAppearanceOps ("c2") [("bones.x", 5)]
    ⟨"c1", [("c2", ())]⟩ ⟨[]⟩ true (by decide)
